import Mathlib

/-!
Verification development for the golib HTTP client
(src/http/client/client.go) and the parts of the Go standard library it
delegates to (net/http request construction and body handling, net/url
parsing and form encoding, encoding/json marshalling).  Go byte strings
are modelled as `List Nat` (one `Nat` per byte), durations as `Int`
nanoseconds, and fallible operations return `Except`.
-/

set_option maxHeartbeats 1000000

/-! ## Bytes and strings -/

/-- UTF-8 encoding of a single character, as Go would store it in a
`string` or `[]byte`. -/
def utf8EncodeChar (c : Char) : List Nat :=
  let n := c.toNat
  if n < 0x80 then [n]
  else if n < 0x800 then [0xC0 + n / 0x40, 0x80 + n % 0x40]
  else if n < 0x10000 then
    [0xE0 + n / 0x1000, 0x80 + (n / 0x40) % 0x40, 0x80 + n % 0x40]
  else
    [0xF0 + n / 0x40000, 0x80 + (n / 0x1000) % 0x40,
     0x80 + (n / 0x40) % 0x40, 0x80 + n % 0x40]

/-- The UTF-8 bytes of a string, matching the byte contents of a Go
`string` literal. -/
def strBytes (s : String) : List Nat :=
  (s.data.map utf8EncodeChar).flatten

/-! ## HTTP headers

`http.Header` is `map[string][]string` keyed by canonical MIME header
keys; it is modelled as an association list whose `set` operation
replaces the entry for the canonical key. -/

/-- Go `golang.org/x/net/http/httpguts.IsTokenRune` / net/textproto
`validHeaderFieldByte`: the HTTP token alphabet. -/
def isTokenCode (n : Nat) : Bool :=
  (48 ≤ n && n ≤ 57) || (65 ≤ n && n ≤ 90) || (97 ≤ n && n ≤ 122) ||
  n == 33 || n == 35 || n == 36 || n == 37 || n == 38 || n == 39 ||
  n == 42 || n == 43 || n == 45 || n == 46 || n == 94 || n == 95 ||
  n == 96 || n == 124 || n == 126

/-- One step of net/textproto canonicalisation: upcase a letter at the
start of a word, downcase letters elsewhere; a word boundary follows a
hyphen. -/
def canonChars (upper : Bool) : List Char → List Char
  | [] => []
  | c :: rest =>
    let n := c.toNat
    let c2 : Char :=
      if upper && 97 ≤ n && n ≤ 122 then Char.ofNat (n - 32)
      else if !upper && 65 ≤ n && n ≤ 90 then Char.ofNat (n + 32)
      else c
    c2 :: canonChars (c2 = '-') rest

/-- net/textproto `CanonicalMIMEHeaderKey`: canonicalise if every byte
is a valid header-field byte, otherwise return the key unchanged. -/
def canonicalKey (s : String) : String :=
  if s.data.all (fun c => isTokenCode c.toNat) then
    String.mk (canonChars true s.data)
  else s

abbrev Header := List (String × List String)

/-- `http.Header.Set`: replace the entry for the canonical key with the
single value `v`. -/
def headerSet (h : Header) (k v : String) : Header :=
  let ck := canonicalKey k
  (ck, [v]) :: h.filter (fun p => p.1 ≠ ck)

/-- `http.Header.Get`: first value stored under the canonical key, or
the empty string. -/
def headerGet (h : Header) (k : String) : String :=
  match h.find? (fun p => p.1 = canonicalKey k) with
  | some (_, v :: _) => v
  | _ => ""

/-! ## Body sources and the body factory

`SetBody` receives an `io.Reader`; its behaviour depends on the dynamic
type of the reader.  The cases the code distinguishes are modelled as a
tagged variant. -/

/-- The dynamic type of the `io.Reader` handed to `SetBody` or
`http.NewRequest`. -/
inductive BodySource where
  /-- A nil `io.Reader` interface value. -/
  | nilReader
  /-- `*bytes.Buffer` whose unread portion is `unread`. -/
  | buffer (unread : List Nat)
  /-- `*bytes.Reader` over `data`, current read offset `pos`. -/
  | bytesReader (data : List Nat) (pos : Nat)
  /-- `*strings.Reader` over `data` (UTF-8 bytes), read offset `pos`. -/
  | stringsReader (data : List Nat) (pos : Nat)
  /-- The sentinel `http.NoBody`. -/
  | noBody
  /-- Any other reader: an arbitrary one-shot stream holding `content`. -/
  | oneShot (content : List Nat)
  deriving DecidableEq

/-- The bytes a fresh read of the source would yield (the live stream
contents at attach time). -/
def BodySource.liveBytes : BodySource → List Nat
  | .nilReader => []
  | .buffer unread => unread
  | .bytesReader data pos => data.drop pos
  | .stringsReader data pos => data.drop pos
  | .noBody => []
  | .oneShot content => content

/-- The snapshot captured by the replayable-body cases of `SetBody`:
for `*bytes.Buffer` the unread bytes, for the two fixed-size readers the
bytes from the current offset onward. -/
def BodySource.snapshot : BodySource → List Nat
  | .buffer unread => unread
  | .bytesReader data pos => data.drop pos
  | .stringsReader data pos => data.drop pos
  | _ => []

/-- Whether the source is one of the bounded in-memory representations
special-cased by `SetBody`. -/
def BodySource.isBounded : BodySource → Bool
  | .buffer _ => true
  | .bytesReader _ _ => true
  | .stringsReader _ _ => true
  | _ => false

/-- `Request.GetBody`: either nil (no factory installed) or a closure
that returns a fresh reader over an immutable snapshot on every call. -/
inductive GetBody where
  /-- A nil `GetBody` field: no new stream can be obtained. -/
  | nilFactory
  /-- A snapshot closure: every invocation yields a fresh independent
  stream containing exactly `bytes`. -/
  | snapshot (bytes : List Nat)
  deriving DecidableEq

/-- Failure of the body factory. -/
inductive FactoryError where
  /-- The body cannot be re-obtained (nil `GetBody`); net/http treats
  such a request as non-replayable. -/
  | notReplayable
  deriving DecidableEq

/-- Invoke the request body factory once.  A `snapshot` closure returns
its bytes as a fresh stream; a nil factory cannot produce a stream. -/
def invokeGetBody : GetBody → Except FactoryError (List Nat)
  | .nilFactory => .error .notReplayable
  | .snapshot bytes => .ok bytes

/-- Invoke the body factory twice in sequence, returning the contents of
the two streams produced. -/
def invokeGetBodyTwice (g : GetBody) : Except FactoryError (List Nat × List Nat) :=
  match invokeGetBody g with
  | .error e => .error e
  | .ok a =>
    match invokeGetBody g with
    | .error e => .error e
    | .ok b => .ok (a, b)

/-! ## URL model (populated by the parser defined further below) -/

structure URL where
  scheme : String := ""
  opaquePart : String := ""
  hasUser : Bool := false
  username : String := ""
  password : Option String := none
  host : String := ""
  path : String := ""
  rawQuery : String := ""
  fragment : String := ""
  forceQuery : Bool := false
  omitHost : Bool := false
  deriving DecidableEq

/-! ## Requests -/

/-- The wrapped `*http.Request` state that the client code reads and
writes: method, URL, header map, declared content length, the live body
stream (`none` models a nil `Body`) and the `GetBody` factory. -/
structure Request where
  method : String
  url : URL
  header : Header
  contentLength : Int
  body : Option (List Nat)
  getBody : GetBody

/-- The trailing `if req.ContentLength == 0` block of `SetBody`
(client.go lines 125 to 128): an explicitly empty body is replaced by
the `http.NoBody` sentinel and a factory that returns it. -/
def setBodyFinish (req : Request) : Request :=
  if req.contentLength = 0 then
    { req with body := some [], getBody := .snapshot [] }
  else req

/-- `Request.SetBody` (client.go lines 80 to 130).  A nil reader yields
an explicitly empty body; `*bytes.Buffer`, `*bytes.Reader` and
`*strings.Reader` get their length as content length and a snapshot
factory; `http.NoBody` falls into the default case without touching the
content length; any other reader sets content length to -1 and leaves
the previously installed factory unchanged. -/
def setBody (req : Request) (src : BodySource) : Request :=
  match src with
  | .nilReader =>
      { req with contentLength := 0, body := some [], getBody := .snapshot [] }
  | .buffer unread =>
      setBodyFinish { req with body := some unread,
                               contentLength := (unread.length : Int),
                               getBody := .snapshot unread }
  | .bytesReader data pos =>
      setBodyFinish { req with body := some (data.drop pos),
                               contentLength := ((data.length - pos : Nat) : Int),
                               getBody := .snapshot (data.drop pos) }
  | .stringsReader data pos =>
      setBodyFinish { req with body := some (data.drop pos),
                               contentLength := ((data.length - pos : Nat) : Int),
                               getBody := .snapshot (data.drop pos) }
  | .noBody =>
      setBodyFinish { req with body := some [] }
  | .oneShot content =>
      setBodyFinish { req with body := some content, contentLength := -1 }

/-- An empty URL value for building concrete requests. -/
def emptyURL : URL := {}

/-- A freshly constructed request with no body and no factory, as
`http.NewRequest` produces for a nil body. -/
def freshRequest : Request :=
  { method := "GET", url := emptyURL, header := [], contentLength := 0,
    body := none, getBody := .nilFactory }

/-! ## net/url parsing (the failure conditions of `url.Parse`)

`Client.NewRequest` delegates to `http.NewRequest`, which fails exactly
when the method is not a valid token or `url.Parse` rejects the URL.
The parser below follows the control flow of net/url `Parse`/`parse`;
percent-escaped components are validated as Go does, and the raw
(escaped) text of each component is stored, since no claim observes the
percent-decoded values. -/

/-- The error classification seen by one attempt of `Client.Do`. -/
inductive AttemptError where
  /-- A connection-level failure, retryable under the default policy. -/
  | network
  /-- Any other, non-retryable error. -/
  | other (msg : String)
  deriving DecidableEq

/-- The default retryable-error predicate of the spec: network and
transport errors are retryable, everything else is terminal. -/
def defaultRetryable : AttemptError → Bool
  | .network => true
  | .other _ => false

/-- Modelled from the spec: `retry.RetryOptions` (package retry, not
under src/) holds the max attempt count, the backoff schedule as a pure
function of the attempt index, and the retryable-error predicate
(spec sections 3 and 4.4). -/
structure RetryOptions where
  maxAttempts : Nat
  backoffNanos : Nat → Int := fun _ => 0
  isRetryable : AttemptError → Bool := defaultRetryable

/-! ## Transport client -/

/-- Go `time.Duration` values in nanoseconds. -/
def nanosPerSecond : Int := 1000000000

/-- client.go line 21: `defaultTimeout = 10 * time.Second`. -/
def defaultTimeout : Int := 10 * nanosPerSecond

/-- Two to the 64th power, the int64 wraparound modulus. -/
def twoPow64 : Int := 18446744073709551616

/-- Two to the 63rd power, the first value outside the int64 range. -/
def twoPow63 : Int := 9223372036854775808

/-- Reduce an unbounded integer to Go int64 two's-complement
wraparound semantics. -/
def wrapInt64 (n : Int) : Int :=
  let m := Int.emod n twoPow64
  if m < twoPow63 then m else m - twoPow64

/-- Go int64 multiplication: multiply, then wrap on overflow.
`time.Duration` is an int64, so `timeout * 3` uses this. -/
def int64Mul (a b : Int) : Int := wrapInt64 (a * b)

/-- `ClientOptions` (client.go lines 30 to 35). -/
structure ClientOptions where
  baseURL : String := ""
  timeout : Int := 0
  retryOpts : Option RetryOptions := none
  header : Header := []

/-- The `Client` state (client.go lines 24 to 28): the overall timeout
and the derived dial and TLS-handshake timeouts of the embedded
`http.Client`, the retry options and the default header map. -/
structure Client where
  timeout : Int
  dialTimeout : Int
  tlsHandshakeTimeout : Int
  retryOpts : Option RetryOptions
  header : Header

/-- `NewClient` (client.go lines 37 to 60): a nil options value is
replaced by the zero options; a non-positive timeout is replaced by the
default; the dialer and TLS-handshake timeouts are `timeout * 3 / 4`
computed in wrapping int64 arithmetic (`time.Duration` is an int64),
with Go division truncating toward zero.  The function is total, so a
client value is always produced. -/
def newClient (opts : Option ClientOptions) : Client :=
  let o := opts.getD {}
  let timeout := if o.timeout ≤ 0 then defaultTimeout else o.timeout
  { timeout := timeout,
    dialTimeout := Int.tdiv (int64Mul timeout 3) 4,
    tlsHandshakeTimeout := Int.tdiv (int64Mul timeout 3) 4,
    retryOpts := o.retryOpts,
    header := o.header }

mutual
inductive JsonValue where
  | null
  | boolean (b : Bool)
  | num (n : Int)
  | str (s : String)
  | arr (elems : JsonList)
  | obj (fields : JsonFields)
  | unsupported
inductive JsonList where
  | nil
  | cons (hd : JsonValue) (tl : JsonList)
inductive JsonFields where
  | nil
  | cons (key : String) (val : JsonValue) (tl : JsonFields)
end

/-- Lower-case hex digit, as used by encoding/json `\u00xx` escapes. -/
def lowerHexDigit (n : Nat) : Nat :=
  if n < 10 then 48 + n else 87 + n

/-- encoding/json string escaping with the default HTML escaping: quote,
backslash, the three whitespace controls, other controls as `\u00xx`,
the HTML-significant characters as `\u00xx`, and U+2028/U+2029. -/
def jsonEscapeChar (c : Char) : List Nat :=
  let n := c.toNat
  if n = 34 then [92, 34]
  else if n = 92 then [92, 92]
  else if n = 10 then [92, 110]
  else if n = 13 then [92, 114]
  else if n = 9 then [92, 116]
  else if n < 32 then [92, 117, 48, 48, lowerHexDigit (n / 16), lowerHexDigit (n % 16)]
  else if n = 60 || n = 62 || n = 38 then
    [92, 117, 48, 48, lowerHexDigit (n / 16), lowerHexDigit (n % 16)]
  else if n = 0x2028 || n = 0x2029 then
    [92, 117, 50, 48, 50, lowerHexDigit (n % 16)]
  else utf8EncodeChar c

/-- encoding/json quoted string. -/
def jsonQuote (s : String) : List Nat :=
  [34] ++ (s.data.map jsonEscapeChar).flatten ++ [34]

mutual
/-- `json.Marshal` on the modelled value: bytes on success, an error
when an unsupported value occurs anywhere in the tree. -/
def jsonMarshal : JsonValue → Except String (List Nat)
  | .null => .ok (strBytes "null")
  | .boolean true => .ok (strBytes "true")
  | .boolean false => .ok (strBytes "false")
  | .num n => .ok (strBytes (toString n))
  | .str s => .ok (jsonQuote s)
  | .arr elems =>
    match jsonMarshalList elems with
    | .error e => .error e
    | .ok parts => .ok ([91] ++ joinComma parts ++ [93])
  | .obj fields =>
    match jsonMarshalFields fields with
    | .error e => .error e
    | .ok parts => .ok ([123] ++ joinComma parts ++ [125])
  | .unsupported => .error "json: unsupported type"

def jsonMarshalList : JsonList → Except String (List (List Nat))
  | .nil => .ok []
  | .cons hd tl =>
    match jsonMarshal hd with
    | .error e => .error e
    | .ok b =>
      match jsonMarshalList tl with
      | .error e => .error e
      | .ok bs => .ok (b :: bs)

def jsonMarshalFields : JsonFields → Except String (List (List Nat))
  | .nil => .ok []
  | .cons key val tl =>
    match jsonMarshal val with
    | .error e => .error e
    | .ok b =>
      match jsonMarshalFields tl with
      | .error e => .error e
      | .ok bs => .ok ((jsonQuote key ++ [58] ++ b) :: bs)

/-- Join byte chunks with commas. -/
def joinComma : List (List Nat) → List Nat
  | [] => []
  | [b] => b
  | b :: bs => b ++ [44] ++ joinComma bs
end

/-- `Request.WithJsonBody` (client.go lines 132 to 141): set the
Content-Type header first, then marshal; on failure return the error
with the request body untouched, otherwise attach the serialized bytes
through `SetBody` with a `bytes.Reader`. -/
def withJsonBody (req : Request) (v : JsonValue) : Request × Option String :=
  let req := { req with header := headerSet req.header "Content-Type" "application/json" }
  match jsonMarshal v with
  | .error e => (req, some e)
  | .ok bs => (setBody req (.bytesReader bs 0), none)

/-! ## Form bodies -/

/-- `url.Values`: a map from keys to value lists, modelled as an
association list with distinct keys. -/
abbrev Values := List (String × List String)

/-- Upper-case hex digit, as used by `url.QueryEscape`. -/
def upperHexDigit (n : Nat) : Nat :=
  if n < 10 then 48 + n else 55 + n

/-- The bytes `shouldEscape` leaves unescaped in query-component mode:
alphanumerics and `-._~`. -/
def queryUnreserved (b : Nat) : Bool :=
  (48 ≤ b && b ≤ 57) || (65 ≤ b && b ≤ 90) || (97 ≤ b && b ≤ 122) ||
  b == 45 || b == 46 || b == 95 || b == 126

/-- `url.QueryEscape`: space becomes `+`, unreserved bytes pass
through, everything else is percent-escaped with upper-case hex. -/
def queryEscape (s : String) : List Nat :=
  ((strBytes s).map (fun b =>
    if b = 32 then [43]
    else if queryUnreserved b then [b]
    else [37, upperHexDigit (b / 16), upperHexDigit (b % 16)])).flatten

/-- Byte-wise lexicographic order on strings, as `slices.Sort` uses for
Go strings. -/
def bytesLe : List Nat → List Nat → Bool
  | [], _ => true
  | _ :: _, [] => false
  | a :: as, b :: bs => if a < b then true else if b < a then false else bytesLe as bs

/-- Insert a key into a sorted key list. -/
def insertKeySorted (k : String) : List String → List String
  | [] => [k]
  | x :: xs =>
    if bytesLe (strBytes k) (strBytes x) then k :: x :: xs
    else x :: insertKeySorted k xs

/-- Sort the key list in byte-wise lexicographic order; on duplicates
free lists this equals the `slices.Sort` call in `url.Values.Encode`. -/
def sortKeys (l : List String) : List String := l.foldr insertKeySorted []

/-- Map lookup `v[k]` on the modelled `url.Values`. -/
def valuesGet (v : Values) (k : String) : List String :=
  match v.find? (fun p => p.1 = k) with
  | some p => p.2
  | none => []

/-- Join non-flattened encoded segments with `&` (the `buf.Len() > 0`
guard in `Encode` amounts to interleaving `&` between segments). -/
def joinAmp : List (List Nat) → List Nat
  | [] => []
  | [b] => b
  | b :: bs => b ++ [38] ++ joinAmp bs

/-- `url.Values.Encode`: sort the keys, then emit
`escape(k)=escape(v)` for every value of every key in sorted key
order, joined by `&`. -/
def valuesEncode (v : Values) : List Nat :=
  if v = [] then []
  else
    joinAmp (((sortKeys (v.map Prod.fst)).map (fun k =>
      (valuesGet v k).map (fun x => queryEscape k ++ [61] ++ queryEscape x))).flatten)

/-- `Request.SetFormBody` (client.go lines 143 to 146): set the
Content-Type header, then attach the encoded form through `SetBody`
with a `strings.Reader`. -/
def setFormBody (req : Request) (data : Values) : Request :=
  let req := { req with
    header := headerSet req.header "Content-Type" "application/x-www-form-urlencoded" }
  setBody req (.stringsReader (valuesEncode data) 0)

/-! ## Responses -/

/-- The live response body stream: its remaining content, an optional
read error produced after the content is drained, and whether `Close`
has been called on it. -/
structure BodyStream where
  content : List Nat
  failMsg : Option String := none
  closed : Bool := false
  deriving DecidableEq

/-- The wrapped `*http.Response`. -/
structure Response where
  body : BodyStream
  deriving DecidableEq

/-- `Response.GetStringBody` (client.go lines 156 to 162): one
`io.ReadAll` over the live stream, returning its bytes as a string on
success and the read error otherwise.  No `Close` call appears in the
source, so the `closed` flag is left as it was. -/
def getStringBody (resp : Response) : Response × Except String (List Nat) :=
  let drained : BodyStream := { resp.body with content := [] }
  match resp.body.failMsg with
  | some m => ({ body := drained }, .error m)
  | none => ({ body := drained }, .ok resp.body.content)

/-! ## JSON decoding of responses

`BindJsonBody` classifies the error returned by
`json.Decoder.Decode`; the decoder outcome is modelled as data since
the decoder itself is the standard library. -/

/-- The outcome of `json.NewDecoder(resp.Body).Decode(v)`. -/
inductive DecodeOutcome where
  /-- Decode returned nil. -/
  | ok
  /-- `*json.UnmarshalTypeError` with expected Go type name, the
  description of the offending JSON value, the field path and the byte
  offset. -/
  | typeMismatch (typ val field : String) (offset : Int)
  /-- `*json.SyntaxError` with its message and byte offset. -/
  | malformed (msg : String) (offset : Int)
  /-- Any other read or decode error. -/
  | otherErr (msg : String)
  deriving DecidableEq

/-- The value `BindJsonBody` returns. -/
inductive BindResult where
  /-- nil error: decode succeeded. -/
  | success
  /-- An `echo.HTTPError` with status code, message and the original
  error kept via `SetInternal`. -/
  | httpError (code : Nat) (message : String) (internal : DecodeOutcome)
  /-- The underlying error surfaced unclassified. -/
  | unclassified (e : DecodeOutcome)
  deriving DecidableEq

/-- The message `fmt.Sprintf` builds for an unmarshal type error. -/
def typeErrorMessage (typ val field : String) (offset : Int) : String :=
  "Unmarshal type error: expected=" ++ typ ++ ", got=" ++ val ++
  ", field=" ++ field ++ ", offset=" ++ toString offset

/-- The message `fmt.Sprintf` builds for a syntax error. -/
def syntaxErrorMessage (msg : String) (offset : Int) : String :=
  "Syntax error: offset=" ++ toString offset ++ ", error=" ++ msg

/-- `Response.BindJsonBody` (client.go lines 164 to 176): success on a
nil decode error; a 400 `echo.HTTPError` carrying a formatted message
and the internal error for the two classified error types; the error
itself otherwise. -/
def bindJsonBody (d : DecodeOutcome) : BindResult :=
  match d with
  | .ok => .success
  | .typeMismatch typ val field offset =>
      .httpError 400 (typeErrorMessage typ val field offset)
        (.typeMismatch typ val field offset)
  | .malformed msg offset =>
      .httpError 400 (syntaxErrorMessage msg offset) (.malformed msg offset)
  | .otherErr msg => .unclassified (.otherErr msg)

/-! ## The retry executor (`Client.Do`) -/

/-- The state threaded through one `Client.Do` call: the request (whose
live body is consumed by each attempt), the remaining transport stub
outcomes (`true` = the attempt gets a response, `false` = it fails with
a retryable network error), the bytes each attempt wrote to the
network, and how often `GetBody` was invoked. -/
structure DoState where
  req : Request
  outcomes : List Bool
  transmitted : List (List Nat) := []
  getBodyCalls : Nat := 0
  gotResponse : Bool := false

/-- One attempt: the closure `Client.Do` passes to `retry.Do`
(client.go lines 180 to 188).  It calls `c.client.Do` on the same
request value; without redirects net/http drains and closes the live
body while writing the request and never consults `GetBody`, so the
stream stays drained for any later attempt and the invocation count of
the factory is unchanged. -/
def doAttempt (s : DoState) : DoState × Option AttemptError :=
  let sent := s.req.body.getD []
  let req := { s.req with body := some [] }
  let outcome := s.outcomes.headD true
  ({ req := req, outcomes := s.outcomes.tail,
     transmitted := s.transmitted ++ [sent],
     getBodyCalls := s.getBodyCalls,
     gotResponse := s.gotResponse || outcome },
   if outcome then none else some .network)

/-- Modelled from the spec: `retry.Do(fn, opts)` from the repository
retry package (not under src/).  Spec section 4.4: run `fn`; stop on
success; on a failure that the policy classifies retryable with
attempts remaining, back off and run `fn` again; otherwise return the
last error.  The backoff wait has no observable effect here and is
elided. -/
def retryDo (fn : DoState → DoState × Option AttemptError)
    (isRetryable : AttemptError → Bool) :
    Nat → DoState → DoState × Option AttemptError
  | 0, s => (s, none)
  | n + 1, s =>
    match fn s with
    | (s2, none) => (s2, none)
    | (s2, some e) =>
      if isRetryable e ∧ n ≠ 0 then retryDo fn isRetryable n s2
      else (s2, some e)

/-- `Client.Do` (client.go lines 178 to 191): wrap the single-attempt
closure in `retry.Do` with the client retry options. -/
def clientDo (opts : RetryOptions) (s : DoState) : DoState × Option AttemptError :=
  retryDo doAttempt opts.isRetryable opts.maxAttempts s

/-! ## Theorems -/

/-- Setting a header key makes `Get` return exactly the new value. -/
theorem headerGet_headerSet (h : Header) (k v : String) :
    headerGet (headerSet h k v) k = v := by
  simp [headerGet, headerSet]

/-- C1: for every bounded body source (byte buffer, bytes reader or
strings reader) attached via `SetBody`, the content length equals the
byte count of the source at attach time, and two invocations of the
body factory yield two streams with byte-identical contents (both equal
to the snapshot taken at attach time). -/
theorem setBody_bounded_snapshot (req : Request) (src : BodySource)
    (h : src.isBounded = true) :
    (setBody req src).contentLength = ((src.snapshot).length : Int) ∧
    invokeGetBodyTwice (setBody req src).getBody = .ok (src.snapshot, src.snapshot) := by
  cases src with
  | buffer unread =>
    by_cases h0 : unread = []
    · subst h0
      simp [setBody, setBodyFinish, BodySource.snapshot,
        invokeGetBodyTwice, invokeGetBody]
    · have hne : ((unread.length : Nat) : Int) ≠ 0 := by
        simpa [Int.natCast_eq_zero, List.length_eq_zero] using h0
      simp [setBody, setBodyFinish, BodySource.snapshot, hne,
        invokeGetBodyTwice, invokeGetBody]
  | bytesReader data pos =>
    by_cases h0 : data.length - pos = 0
    · have hdrop : data.drop pos = [] :=
        List.drop_eq_nil_of_le (Nat.le_of_sub_eq_zero h0)
      simp [setBody, setBodyFinish, BodySource.snapshot, hdrop, h0,
        invokeGetBodyTwice, invokeGetBody]
    · simp [setBody, setBodyFinish, BodySource.snapshot, h0,
        invokeGetBodyTwice, invokeGetBody, List.length_drop]
  | stringsReader data pos =>
    by_cases h0 : data.length - pos = 0
    · have hdrop : data.drop pos = [] :=
        List.drop_eq_nil_of_le (Nat.le_of_sub_eq_zero h0)
      simp [setBody, setBodyFinish, BodySource.snapshot, hdrop, h0,
        invokeGetBodyTwice, invokeGetBody]
    · simp [setBody, setBodyFinish, BodySource.snapshot, h0,
        invokeGetBodyTwice, invokeGetBody, List.length_drop]
  | nilReader => simp [BodySource.isBounded] at h
  | noBody => simp [BodySource.isBounded] at h
  | oneShot content => simp [BodySource.isBounded] at h

/-- Witness for C1: a bytes reader over three bytes read past the
first byte has content length 2 and replays the remaining two bytes on
both factory invocations. -/
theorem setBody_bounded_snapshot_witness :
    BodySource.isBounded (.bytesReader [7, 8, 9] 1) = true ∧
    (setBody freshRequest (.bytesReader [7, 8, 9] 1)).contentLength = 2 ∧
    invokeGetBodyTwice (setBody freshRequest (.bytesReader [7, 8, 9] 1)).getBody
      = .ok ([8, 9], [8, 9]) :=
  ⟨rfl, (setBody_bounded_snapshot freshRequest (.bytesReader [7, 8, 9] 1) rfl).1,
    (setBody_bounded_snapshot freshRequest (.bytesReader [7, 8, 9] 1) rfl).2⟩

/-- C2 (the code at the failing input): with a replayable 3-byte body,
max attempts 3, and a transport stub failing the first two attempts
with retryable network errors, `Client.Do` succeeds on the third
attempt but never invokes the body factory, and the second and third
attempts transmit an empty body: the live stream consumed by attempt 1
is reused instead of being re-materialized. -/
theorem do_retries_without_rematerialization :
    (clientDo { maxAttempts := 3 }
      { req := setBody freshRequest (.bytesReader [1, 2, 3] 0),
        outcomes := [false, false, true] }).2 = none ∧
    (clientDo { maxAttempts := 3 }
      { req := setBody freshRequest (.bytesReader [1, 2, 3] 0),
        outcomes := [false, false, true] }).1.transmitted = [[1, 2, 3], [], []] ∧
    (clientDo { maxAttempts := 3 }
      { req := setBody freshRequest (.bytesReader [1, 2, 3] 0),
        outcomes := [false, false, true] }).1.getBodyCalls = 0 ∧
    (clientDo { maxAttempts := 3 }
      { req := setBody freshRequest (.bytesReader [1, 2, 3] 0),
        outcomes := [false, false, true] }).1.gotResponse = true :=
  ⟨rfl, rfl, rfl, rfl⟩

/-- C3 counterexample: attaching a one-shot source to a request that
previously held a bounded body leaves the stale snapshot factory in
place, so invoking the factory yields a stream (the old bytes) instead
of failing as not replayable. -/
theorem setBody_oneShot_stale_factory :
    (setBody (setBody freshRequest (.bytesReader [1, 2, 3] 0))
      (.oneShot [9])).contentLength = -1 ∧
    invokeGetBody (setBody (setBody freshRequest (.bytesReader [1, 2, 3] 0))
      (.oneShot [9])).getBody = .ok [1, 2, 3] ∧
    invokeGetBody (setBody (setBody freshRequest (.bytesReader [1, 2, 3] 0))
      (.oneShot [9])).getBody ≠ .error FactoryError.notReplayable :=
  ⟨rfl, rfl, by
    intro hcontra
    have h2 : (Except.ok [1, 2, 3] : Except FactoryError (List Nat))
        = .error .notReplayable := hcontra
    exact Except.noConfusion h2⟩

/-- C3 amended: attaching a one-shot source via `SetBody` sets the
content length to -1 and installs no factory, so on a request whose
factory was not previously set every invocation of the factory — in
particular the second — fails as not replayable instead of yielding a
stream.  (If an earlier bounded body had installed a factory, that
stale factory survives; see the counterexample.) -/
theorem setBody_oneShot_fresh_notReplayable (req : Request) (content : List Nat)
    (h : req.getBody = GetBody.nilFactory) :
    (setBody req (.oneShot content)).contentLength = -1 ∧
    invokeGetBody (setBody req (.oneShot content)).getBody
      = .error FactoryError.notReplayable := by
  simp [setBody, setBodyFinish, h, invokeGetBody]

/-- Witness for the amended C3: a fresh request with a one-shot body. -/
theorem setBody_oneShot_fresh_notReplayable_witness :
    freshRequest.getBody = GetBody.nilFactory ∧
    (setBody freshRequest (.oneShot [5])).contentLength = -1 ∧
    invokeGetBody (setBody freshRequest (.oneShot [5])).getBody
      = .error FactoryError.notReplayable :=
  ⟨rfl, (setBody_oneShot_fresh_notReplayable freshRequest [5] rfl).1,
    (setBody_oneShot_fresh_notReplayable freshRequest [5] rfl).2⟩

/-- C4 counterexample: form pairs supplied in the order y then x are
encoded sorted by key, so the body is `x=1&y=2`, not the
caller-supplied order `y=2&x=1`. -/
theorem setFormBody_ignores_caller_order :
    (setFormBody freshRequest [("y", ["2"]), ("x", ["1"])]).body
      = some (strBytes "x=1&y=2") ∧
    strBytes "x=1&y=2" ≠ strBytes "y=2&x=1" :=
  ⟨rfl, by decide⟩

/-- C4 amended: `SetFormBody` percent-escapes keys and values, joins
the pairs with ampersands in byte-wise sorted key order (the caller
order of the `url.Values` map is irrelevant), and sets the
Content-Type header; for the pairs x maps to 1 and y maps to 2 3 the
body is `x=1&y=2+3` with content length 9, whichever order the pairs
are supplied in. -/
theorem setFormBody_encoding (req : Request) :
    headerGet (setFormBody req [("x", ["1"]), ("y", ["2 3"])]).header "Content-Type"
      = "application/x-www-form-urlencoded" ∧
    (setFormBody req [("x", ["1"]), ("y", ["2 3"])]).body
      = some (strBytes "x=1&y=2+3") ∧
    (setFormBody req [("x", ["1"]), ("y", ["2 3"])]).contentLength = 9 ∧
    (setFormBody req [("y", ["2 3"]), ("x", ["1"])]).body
      = some (strBytes "x=1&y=2+3") :=
  ⟨rfl, rfl, rfl, rfl⟩

/-- C5: when the value marshals successfully, `WithJsonBody` returns no
error, the Content-Type header equals application/json, and the content
length is exactly the byte length of the serialized payload. -/
theorem withJsonBody_contentType_and_length (req : Request) (v : JsonValue)
    (bs : List Nat) (h : jsonMarshal v = .ok bs) :
    (withJsonBody req v).2 = none ∧
    headerGet (withJsonBody req v).1.header "Content-Type" = "application/json" ∧
    (withJsonBody req v).1.contentLength = (bs.length : Int) := by
  simp only [withJsonBody, h, setBody, setBodyFinish, List.drop_zero,
    Nat.sub_zero]
  refine ⟨by trivial, ?_, ?_⟩
  · split <;> simp [headerGet_headerSet]
  · split <;> rfl

/-- Witness for C5: the object with the single field a mapped to 1
serializes to 7 bytes, and the attached request has content length 7
and the JSON content type. -/
theorem withJsonBody_contentType_and_length_witness :
    jsonMarshal (JsonValue.obj (.cons "a" (.num 1) .nil))
      = .ok [123, 34, 97, 34, 58, 49, 125] ∧
    (withJsonBody freshRequest (JsonValue.obj (.cons "a" (.num 1) .nil))).2 = none ∧
    headerGet (withJsonBody freshRequest
      (JsonValue.obj (.cons "a" (.num 1) .nil))).1.header "Content-Type"
      = "application/json" ∧
    (withJsonBody freshRequest
      (JsonValue.obj (.cons "a" (.num 1) .nil))).1.contentLength = 7 :=
  ⟨rfl,
    (withJsonBody_contentType_and_length freshRequest
      (JsonValue.obj (.cons "a" (.num 1) .nil)) [123, 34, 97, 34, 58, 49, 125] rfl).1,
    (withJsonBody_contentType_and_length freshRequest
      (JsonValue.obj (.cons "a" (.num 1) .nil)) [123, 34, 97, 34, 58, 49, 125] rfl).2.1,
    (withJsonBody_contentType_and_length freshRequest
      (JsonValue.obj (.cons "a" (.num 1) .nil)) [123, 34, 97, 34, 58, 49, 125] rfl).2.2⟩

/-- C6: every call of `BindJsonBody` produces exactly one of four
outcomes, determined by the decoder result: success on a nil error; a
400 error whose message carries the expected type, the actual value,
the field path and the byte offset for an unmarshal type error; a 400
error whose message carries the byte offset and the description for a
syntax error; the underlying error unclassified otherwise.  The four
cases are mutually exclusive since the decoder outcomes are distinct
constructors and `bindJsonBody` is a function. -/
theorem bindJsonBody_outcomes (d : DecodeOutcome) :
    (d = .ok ∧ bindJsonBody d = .success) ∨
    (∃ typ val field offset, d = .typeMismatch typ val field offset ∧
      bindJsonBody d = .httpError 400 (typeErrorMessage typ val field offset) d) ∨
    (∃ msg offset, d = .malformed msg offset ∧
      bindJsonBody d = .httpError 400 (syntaxErrorMessage msg offset) d) ∨
    (∃ msg, d = .otherErr msg ∧ bindJsonBody d = .unclassified d) := by
  cases d with
  | ok => exact Or.inl ⟨rfl, rfl⟩
  | typeMismatch typ val field offset =>
      exact Or.inr (Or.inl ⟨typ, val, field, offset, rfl, rfl⟩)
  | malformed msg offset =>
      exact Or.inr (Or.inr (Or.inl ⟨msg, offset, rfl, rfl⟩))
  | otherErr msg => exact Or.inr (Or.inr (Or.inr ⟨msg, rfl, rfl⟩))

/-- C8 counterexample: extracting the string body of a response whose
stream completes normally returns the full content but leaves the
stream unclosed. -/
theorem getStringBody_leaves_stream_open :
    (getStringBody { body := { content := strBytes "hi" } }).2
      = .ok (strBytes "hi") ∧
    (getStringBody { body := { content := strBytes "hi" } }).1.body.closed = false :=
  ⟨rfl, rfl⟩

/-- C8 amended: `GetStringBody` reads the entire live stream into
memory exactly once (the stream is left drained), returns the full body
as a string on success and the read error on failure, and does not
close the stream in either case — the closed flag is exactly what it
was before the call. -/
theorem getStringBody_reads_once_no_close (resp : Response) :
    (getStringBody resp).1.body.content = [] ∧
    (getStringBody resp).1.body.closed = resp.body.closed ∧
    (getStringBody resp).2 = (match resp.body.failMsg with
      | none => .ok resp.body.content
      | some m => .error m) := by
  cases h : resp.body.failMsg <;> simp [getStringBody, h]

/-- C9: when marshalling fails, `WithJsonBody` returns the error with
the body fields untouched, but the Content-Type header has already been
mutated to application/json. -/
theorem withJsonBody_header_mutation_on_failure (req : Request) (v : JsonValue)
    (e : String) (h : jsonMarshal v = .error e) :
    (withJsonBody req v).2 = some e ∧
    headerGet (withJsonBody req v).1.header "Content-Type" = "application/json" ∧
    (withJsonBody req v).1.body = req.body ∧
    (withJsonBody req v).1.contentLength = req.contentLength ∧
    (withJsonBody req v).1.getBody = req.getBody := by
  simp [withJsonBody, h, headerGet_headerSet]

/-- Witness for C9: an unsupported value fails to marshal, yet the
resulting request already carries the JSON content type. -/
theorem withJsonBody_header_mutation_on_failure_witness :
    jsonMarshal JsonValue.unsupported = .error "json: unsupported type" ∧
    (withJsonBody freshRequest JsonValue.unsupported).2 = some "json: unsupported type" ∧
    headerGet (withJsonBody freshRequest JsonValue.unsupported).1.header "Content-Type"
      = "application/json" ∧
    (withJsonBody freshRequest JsonValue.unsupported).1.body = freshRequest.body :=
  ⟨rfl,
    (withJsonBody_header_mutation_on_failure freshRequest
      JsonValue.unsupported "json: unsupported type" rfl).1,
    (withJsonBody_header_mutation_on_failure freshRequest
      JsonValue.unsupported "json: unsupported type" rfl).2.1,
    (withJsonBody_header_mutation_on_failure freshRequest
      JsonValue.unsupported "json: unsupported type" rfl).2.2.1⟩

/-- C10 counterexample: for the representable timeout of 8e18
nanoseconds (about 253 years, within int64), `timeout * 3` wraps in
int64 arithmetic, so the dial and TLS-handshake timeouts are
1388313981572612096 ns — not three quarters of the timeout
(6e18 ns) as the claim asserts for every timeout in effect. -/
theorem newClient_large_timeout_wraps :
    (newClient (some { timeout := 8000000000000000000 })).timeout
      = 8000000000000000000 ∧
    (newClient (some { timeout := 8000000000000000000 })).dialTimeout
      = 1388313981572612096 ∧
    (newClient (some { timeout := 8000000000000000000 })).tlsHandshakeTimeout
      = 1388313981572612096 ∧
    ((1388313981572612096 : Int) ≠ Int.tdiv (8000000000000000000 * 3) 4) :=
  ⟨by decide, by decide, by decide, by decide⟩

/-- C10 amended: `NewClient` is total (a client value is always
produced); a nil options value or a non-positive timeout yields the
10-second default; the dial and TLS-handshake timeouts are
`timeout * 3 / 4` in wrapping int64 arithmetic, which equals three
quarters (truncated) of the effective timeout whenever `timeout * 3`
does not overflow int64. -/
theorem newClient_timeout_defaults (opts : Option ClientOptions) :
    (newClient opts).timeout =
      (match opts with
       | none => defaultTimeout
       | some o => if o.timeout ≤ 0 then defaultTimeout else o.timeout) ∧
    (newClient opts).dialTimeout = Int.tdiv (int64Mul (newClient opts).timeout 3) 4 ∧
    (newClient opts).tlsHandshakeTimeout = Int.tdiv (int64Mul (newClient opts).timeout 3) 4 ∧
    ((newClient opts).timeout * 3 < twoPow63 →
      (newClient opts).dialTimeout = Int.tdiv ((newClient opts).timeout * 3) 4) ∧
    defaultTimeout = 10 * nanosPerSecond := by
  refine ⟨?_, rfl, rfl, ?_, rfl⟩
  · cases opts with
    | none => rfl
    | some o => rfl
  · intro hlt
    have htpos : 0 < (newClient opts).timeout := by
      cases opts with
      | none => decide
      | some o =>
        by_cases h : o.timeout ≤ 0
        · have he : (newClient (some o)).timeout = defaultTimeout := by
            simp [newClient, Option.getD, h]
          rw [he]; decide
        · have he : (newClient (some o)).timeout = o.timeout := by
            simp [newClient, Option.getD, h]
          rw [he]; omega
    have h0 : 0 ≤ (newClient opts).timeout * 3 :=
      le_of_lt (mul_pos htpos (by decide))
    have h64 : (newClient opts).timeout * 3 < twoPow64 :=
      lt_trans hlt (by decide)
    show Int.tdiv (int64Mul (newClient opts).timeout 3) 4
        = Int.tdiv ((newClient opts).timeout * 3) 4
    have hmul : int64Mul (newClient opts).timeout 3 = (newClient opts).timeout * 3 := by
      simp only [int64Mul, wrapInt64]
      rw [show Int.emod ((newClient opts).timeout * 3) twoPow64
          = (newClient opts).timeout * 3 from Int.emod_eq_of_lt h0 h64]
      rw [if_pos hlt]
    rw [hmul]

/-- Witness for the amended C10: a four-second timeout yields
three-second dial and TLS-handshake sub-timeouts. -/
theorem newClient_timeout_defaults_witness :
    (newClient (some { timeout := 4000000000 })).timeout = 4000000000 ∧
    (newClient (some { timeout := 4000000000 })).dialTimeout = 3000000000 :=
  ⟨((newClient_timeout_defaults (some { timeout := 4000000000 })).1).trans (by decide),
    (((newClient_timeout_defaults (some { timeout := 4000000000 })).2.2.2.1)
      (by decide)).trans (by decide)⟩
